import Mathlib

/-!
Verification of `bevy_mod_replication` (a server-authoritative entity
replication layer) against its natural-language specification.

The development shallowly embeds the relevant Rust code:
machine integers become `Nat` with explicit wrapping modulo `2^32`
(or `2^16`), collections become lists or functions into `Option`,
and fallible code returns `Option`. Definitions follow the source
files under `src/`; the handful of helper modules that the sources
reference but that are not part of the source tree are modelled from
the specification and marked as such in their doc comments.
-/

namespace Replication

/-! ## Tick arithmetic (`src/core/replicon_tick.rs`)

`RepliconTick` wraps a `u32`; all operations are wrapping. We represent
the wrapped value as a `Nat` together with explicit `% 2^32` arithmetic.
-/

/-- The value `2^32`, the modulus of the wrapping 32-bit counter. -/
def u32Mod : Nat := 4294967296

/-- The value `u32::MAX`. -/
def u32Max : Nat := 4294967295

/-- Rust `u32::wrapping_sub` on values below `2^32`. -/
def wrappingSub (a b : Nat) : Nat := (a + (u32Mod - b % u32Mod)) % u32Mod

/-- Rust `u32::wrapping_add` on values below `2^32`. -/
def wrappingAdd (a b : Nat) : Nat := (a + b) % u32Mod

/-- Rust `RepliconTick::partial_cmp` (`replicon_tick.rs:35-44`): compares two
tick values through the wrapping difference `self.0.wrapping_sub(other.0)`;
the difference `0` means equal, a difference above `u32::MAX / 2` means
less, anything else greater. The Rust implementation always returns
`Some`, so we return the `Ordering` directly. -/
def tickCmp (a b : Nat) : Ordering :=
  if wrappingSub a b = 0 then .eq
  else if wrappingSub a b > u32Max / 2 then .lt
  else .gt

/-- Rust `RepliconTick::add` (`replicon_tick.rs:47-53`): wrapping addition. -/
def tickAdd (t k : Nat) : Nat := wrappingAdd t k

/-- Reinterpretation of a `u32` bit pattern (a value below `2^32`) as a
signed `i32`, for stating the spec's `(a - b) as i32` condition. -/
def asI32 (d : Nat) : Int :=
  if d < 2147483648 then (d : Int) else (d : Int) - 4294967296

/-! ## Variable-length integers

Both the `integer_encoding` and `varint_rs` crates used by the sources
implement the standard LEB128 encoding: little-endian groups of 7 bits,
high bit of a byte set iff more bytes follow. -/

/-- LEB128 encoding, by structural recursion on a fuel value so the
definition evaluates by reduction; the fuel only needs to dominate the
number of 7-bit digits and `varintEncode` passes the value itself. -/
def varintEncodeAux : Nat → Nat → List Nat
  | 0, n => [n]
  | fuel + 1, n =>
    if n < 128 then [n]
    else (n % 128 + 128) :: varintEncodeAux fuel (n / 128)

/-- LEB128 encoding of an unsigned integer. -/
def varintEncode (n : Nat) : List Nat := varintEncodeAux n n

/-- LEB128 decoding: returns the value and the remaining bytes. -/
def varintDecode : List Nat → Option (Nat × List Nat)
  | [] => none
  | b :: rest =>
    if b < 128 then some (b, rest)
    else (varintDecode rest).map fun (v, r) => (b % 128 + 128 * v, r)

/-! ## Entity serialization (`src/server/replication_buffer.rs:319-330`) -/

/-- An entity identity: `(index, generation)` pair, both `u32` in the host
store. -/
structure REntity where
  index : Nat
  generation : Nat
deriving DecidableEq, Repr

/-- Rust `serialize_entity` (`replication_buffer.rs:319-330`): writes
`flagged_index = (index as u64) << 1 | (generation > 0)` as a varint,
then the generation as a second varint only when it is non-zero. The
shift cannot overflow `u64` because the index is a `u32`. -/
def serialize_entity (entity : REntity) : List Nat :=
  let flag := entity.generation > 0
  let flaggedIndex := 2 * entity.index + (if flag then 1 else 0)
  varintEncode flaggedIndex ++ (if flag then varintEncode entity.generation else [])

/-! ## Host change ticks (external dependency `bevy_ecs`)

`ReplicatedClient` stores floor ticks as `bevy_ecs::component::Tick`
values, compared with `Tick::is_newer_than`. We embed that dependency's
semantics: ticks are wrapping `u32` counters and ages are clamped to
`MAX_CHANGE_AGE`. -/

/-- The `bevy_ecs` constant `MAX_CHANGE_AGE = u32::MAX - (2 * CHECK_TICK_THRESHOLD - 1)`
with `CHECK_TICK_THRESHOLD = 518_400_000`. -/
def MAX_CHANGE_AGE : Nat := 3258167296

/-- Rust `Tick::relative_to`: wrapping difference of two tick values. -/
def tickRelativeTo (a b : Nat) : Nat := wrappingSub a b

/-- Rust `Tick::is_newer_than(self, last_run, this_run)`: compares the clamped
age of `self` against the clamped age of `last_run`, both relative to
`this_run`. -/
def isNewerThan (self lastRun thisRun : Nat) : Bool :=
  let ticksSinceInsert := min (tickRelativeTo thisRun self) MAX_CHANGE_AGE
  let ticksSinceSystem := min (tickRelativeTo thisRun lastRun) MAX_CHANGE_AGE
  ticksSinceSystem > ticksSinceInsert

/-! ## Per-client replication state (`src/core/replicated_clients.rs`)

Entities are identified by `Nat` here; the floor-tick map
(`change_ticks: EntityHashMap<Tick>`) becomes a function into `Option`.
-/

/-- Rust `VisibilityPolicy` (`replicated_clients.rs:396-404`). -/
inductive VisibilityPolicy where
  | All
  | Blacklist
  | Whitelist
deriving DecidableEq, Repr

/-- Modelled from the spec: `client_visibility.rs` is not among the
sources. Per §3/§4.1 of the spec, a client's visibility state is its
configured policy plus the set of explicitly registered entities;
clearing empties the registered set but keeps the policy. -/
structure ClientVisibility where
  policy : VisibilityPolicy
  registered : List Nat
deriving DecidableEq, Repr

/-- Modelled from the spec: `ClientVisibility::new` starts with no
registered entities under the given policy. -/
def ClientVisibility.new (policy : VisibilityPolicy) : ClientVisibility :=
  ⟨policy, []⟩

/-- Modelled from the spec: `ClientVisibility::clear` forgets all
registered entities, keeping the policy. -/
def ClientVisibility.clear (v : ClientVisibility) : ClientVisibility :=
  ⟨v.policy, []⟩

/-- Rust `UpdateInfo` (`replicated_clients.rs:388-392`): tick, wall-clock
timestamp and the entities touched by one in-flight update message. -/
structure UpdateInfo where
  tick : Nat
  timestamp : Nat
  entities : List Nat
deriving DecidableEq, Repr

/-- Rust `ReplicatedClient` (`replicated_clients.rs:170-194`). The `updates`
hash map (`u16` index to `UpdateInfo`) becomes an association list with
unique keys; `next_update_index` wraps modulo `2^16` on registration. -/
structure ReplicatedClient where
  id : Nat
  change_ticks : Nat → Option Nat
  visibility : ClientVisibility
  init_tick : Nat
  updates : List (Nat × UpdateInfo)
  next_update_index : Nat

/-- Rust `ReplicatedClient::new` (`replicated_clients.rs:197-206`). -/
def ReplicatedClient.new (id : Nat) (policy : VisibilityPolicy) : ReplicatedClient :=
  { id := id
    change_ticks := fun _ => none
    visibility := ClientVisibility.new policy
    init_tick := 0
    updates := []
    next_update_index := 0 }

/-- Rust `ReplicatedClient::reset` (`replicated_clients.rs:246-252`): assigns
the new client ID and clears visibility, floor ticks, in-flight updates
and the next update index. (The source does not touch `init_tick`.) -/
def ReplicatedClient.reset (c : ReplicatedClient) (id : Nat) : ReplicatedClient :=
  { c with
    id := id
    visibility := c.visibility.clear
    change_ticks := fun _ => none
    updates := []
    next_update_index := 0 }

/-- Rust `ReplicatedClient::drain_entities` (`replicated_clients.rs:237-241`):
drains the in-flight update registry, yielding the entity lists. -/
def ReplicatedClient.drain_entities (c : ReplicatedClient) :
    List (List Nat) × ReplicatedClient :=
  (c.updates.map (fun p => p.2.entities), { c with updates := [] })

/-- Lookup of an update record by its index. -/
def updatesLookup (updates : List (Nat × UpdateInfo)) (i : Nat) : Option UpdateInfo :=
  (updates.find? (fun p => p.1 = i)).map (fun p => p.2)

/-- Rust `ClientBuffers` (`replicated_clients.rs:376-386`): pooled
`ReplicatedClient` instances and pooled entity vectors. -/
structure ClientBuffers where
  clients : List ReplicatedClient
  entities : List (List Nat)

/-- The per-entity floor update performed by `acknowledge`
(`replicated_clients.rs:315-326`): if the stored tick is not already
newer than the acknowledged update's tick, raise it to that tick;
entities absent from the floor map are skipped. -/
def ackStep (curTick updTick : Nat) (m : Nat → Option Nat) (e : Nat) :
    Nat → Option Nat := fun x =>
  if x = e then
    (m x).map (fun last => if isNewerThan last updTick curTick then last else updTick)
  else m x

/-- Rust `ReplicatedClient::acknowledge` (`replicated_clients.rs:301-334`):
removes the update record for `update_index` (returning unchanged state
when the index is unknown), conditionally raises the floor tick of every
entity in the record, and returns the record's entity vector to the
buffers. -/
def ReplicatedClient.acknowledge (c : ReplicatedClient) (bufs : ClientBuffers)
    (tick : Nat) (update_index : Nat) : ReplicatedClient × ClientBuffers :=
  match updatesLookup c.updates update_index with
  | none => (c, bufs)
  | some info =>
    let c := { c with
      updates := c.updates.eraseP (fun p => p.1 == update_index)
      change_ticks := info.entities.foldl (ackStep tick info.tick) c.change_ticks }
    (c, { bufs with entities := bufs.entities ++ [info.entities] })

/-- Rust `ReplicatedClients` (`replicated_clients.rs:20-25`). -/
structure ReplicatedClients where
  clients : List ReplicatedClient
  policy : VisibilityPolicy
  replicate_after_connect : Bool

/-- Rust `ReplicatedClients::add` (`replicated_clients.rs:121-137`): ignores
IDs that already replicate; otherwise reuses a pooled instance (Rust
`Vec::pop` takes the most recently pooled one) after resetting it, or
constructs a fresh client. -/
def ReplicatedClients.add (rc : ReplicatedClients) (bufs : ClientBuffers)
    (client_id : Nat) : ReplicatedClients × ClientBuffers :=
  if rc.clients.any (fun c => c.id = client_id) then (rc, bufs)
  else
    match bufs.clients.getLast? with
    | some pooled =>
      ({ rc with clients := rc.clients ++ [pooled.reset client_id] },
       { bufs with clients := bufs.clients.dropLast })
    | none =>
      ({ rc with clients := rc.clients ++ [ReplicatedClient.new client_id rc.policy] },
       bufs)

/-- Rust `ReplicatedClients::remove` (`replicated_clients.rs:142-157`): no-op
for unknown IDs; otherwise removes the client, returns its update entity
vectors to the buffers and pools the client instance itself. -/
def ReplicatedClients.remove (rc : ReplicatedClients) (bufs : ClientBuffers)
    (client_id : Nat) : ReplicatedClients × ClientBuffers :=
  match rc.clients.find? (fun c => c.id = client_id) with
  | none => (rc, bufs)
  | some client =>
    let (drained, client) := client.drain_entities
    ({ rc with clients := rc.clients.eraseP (fun c => c.id == client_id) },
     { bufs with
       entities := bufs.entities ++ drained
       clients := bufs.clients ++ [client] })

/-! ## Client recycling (claim C8)

A concrete disconnect/reconnect round trip: client 1 disconnects with an
in-flight update and a non-zero `init_tick`; client 2 then connects and
is served the pooled instance. -/

/-- A replicated client for ID 1 with live state: one tracked floor tick,
a non-zero init tick and one in-flight update. -/
def exampleClientA : ReplicatedClient :=
  { id := 1
    change_ticks := fun x => if x = 42 then some 10 else none
    visibility := ⟨.All, []⟩
    init_tick := 5
    updates := [(0, ⟨7, 0, [42]⟩)]
    next_update_index := 1 }

/-- Removing client 1 (pooling its state) and then adding client 2,
which reuses the pooled instance. -/
def exampleRemoveThenAdd : ReplicatedClients × ClientBuffers :=
  let s1 := ReplicatedClients.remove ⟨[exampleClientA], .All, true⟩ ⟨[], []⟩ 1
  ReplicatedClients.add s1.1 s1.2 2

/-! ## Server events (`src/core/event_registry/server_event.rs`)

`ClientId` is declared in `src/core/mod.rs`, which is not among the
sources; it wraps a `u64` and `ClientId::SERVER` is the ID the server
uses when acting as its own client. Modelled from the spec (§4.4) and
the sources' `SERVER_ID: u64 = 0`: we use `Nat` with `SERVER = 0`. -/

/-- Modelled from the spec: the reserved client ID identifying the
server itself (`ClientId::SERVER`). -/
def serverClientId : Nat := 0

/-- Rust `SendMode` (`server_event.rs:599-604`). -/
inductive SendMode where
  | Broadcast
  | BroadcastExcept (client_id : Nat)
  | Direct (client_id : Nat)
deriving DecidableEq, Repr

/-- Rust `resend_locally` (`server_event.rs:432-452`): drains every
`ToClients { event, mode }` pair and re-emits the inner event locally
according to the send mode. -/
def resendLocally {α : Type} : List (SendMode × α) → List α
  | [] => []
  | (mode, event) :: rest =>
    (match mode with
     | .Broadcast => [event]
     | .BroadcastExcept client_id =>
       if client_id ≠ serverClientId then [event] else []
     | .Direct client_id =>
       if client_id = serverClientId then [event] else []) ++ resendLocally rest

/-- The spec's notion of the server being a recipient of a send mode. -/
def serverIsRecipient : SendMode → Bool
  | .Broadcast => true
  | .BroadcastExcept client_id => client_id != serverClientId
  | .Direct client_id => client_id == serverClientId

/-- Rust `send_with` (`server_event.rs:475-514`), restricted to recipient
selection: the function serializes one message per recipient (the
payload depends only on the recipient's init tick, not on which clients
are selected), so the model returns the ordered list of client IDs the
event is sent to. -/
def sendWithRecipients (mode : SendMode) (connected : List Nat) : List Nat :=
  match mode with
  | .Broadcast => connected
  | .BroadcastExcept client_id => connected.filter (fun c => c ≠ client_id)
  | .Direct client_id =>
    if client_id ≠ serverClientId then
      (if client_id ∈ connected then [client_id] else [])
    else []

/-! ## Client-side server-event queue (claim C5)

`ServerEventQueue` (`server_event.rs:610-630`) wraps a
`ListOrderedMultimap<RepliconTick, T>` from the external
`ordered_multimap` crate. We embed that crate's semantics: the surviving
key-value pairs form one global insertion-ordered list; `front` and
`pop_front` act on the head of that list, and `insert` removes any
previous values stored under the key before appending the new pair at
the back. -/

/-- Rust `RepliconTick: a > b` through `partial_cmp`. -/
def tickGtB (a b : Nat) : Bool := tickCmp a b == .gt

/-- Rust `RepliconTick: a <= b` through `partial_cmp` (which never
returns `None`). -/
def tickLeB (a b : Nat) : Bool := tickCmp a b == .lt || tickCmp a b == .eq

/-- Rust `ListOrderedMultimap::insert` via `Deref` (`server_event.rs:422`):
drops any queued values under the same tick, then appends the new pair
at the back of the insertion order. -/
def queueInsert {α : Type} (q : List (Nat × α)) (tick : Nat) (event : α) :
    List (Nat × α) :=
  (q.filter (fun p => p.1 ≠ tick)) ++ [(tick, event)]

/-- Rust `ServerEventQueue::pop_if_le` (`server_event.rs:615-623`): pops the
front pair unless its tick is greater than the init tick. -/
def popIfLe {α : Type} (q : List (Nat × α)) (init_tick : Nat) :
    Option ((Nat × α) × List (Nat × α)) :=
  match q with
  | [] => none
  | (t, e) :: rest => if tickGtB t init_tick then none else some ((t, e), rest)

/-- The drain loop at the start of `receive` (`server_event.rs:404-410`):
repeatedly `pop_if_le`, emitting each popped event. Returns the emitted
pairs in emission order and the remaining queue. -/
def drainQueue {α : Type} (init_tick : Nat) :
    List (Nat × α) → List (Nat × α) × List (Nat × α)
  | [] => ([], [])
  | (t, e) :: rest =>
    if tickGtB t init_tick then ([], (t, e) :: rest)
    else
      let (emitted, q) := drainQueue init_tick rest
      ((t, e) :: emitted, q)

/-- Rust `receive` (`server_event.rs:393-425`): drains the queue, then for
each received message (in arrival order) emits it immediately when its
tick is at most the init tick and queues it otherwise. Returns the
emitted pairs and the final queue. -/
def receivePass {α : Type} (init_tick : Nat) (queue : List (Nat × α))
    (messages : List (Nat × α)) : List (Nat × α) × List (Nat × α) :=
  messages.foldl
    (fun acc m =>
      if tickLeB m.1 init_tick then (acc.1 ++ [m], acc.2)
      else (acc.1, queueInsert acc.2 m.1 m.2))
    (drainQueue init_tick queue)

/-! ## Change messages (`src/server/replication_messages/change_message.rs`)

Serialized chunks are `Range<usize>` handles into the shared
`SerializedData` arena; we model the arena as a list of bytes and a
range as a `(start, end)` pair sliced out of it. The helper modules
`mutate_message.rs`, `component_changes.rs` and
`change_message_flags.rs` belong to this repository but are not among
the sources; their definitions below are modelled from the spec and
from how `change_message.rs` uses them. -/

/-- Bytes covered by a `Range<usize>` in the serialized-data arena. -/
def slice (data : List Nat) (r : Nat × Nat) : List Nat :=
  (data.drop r.1).take (r.2 - r.1)

/-- Indices covered by a `Range<usize>`. -/
def rangeIdx (r : Nat × Nat) : List Nat := List.range' r.1 (r.2 - r.1)

/-- Modelled from the spec: `component_changes.rs` is not among the
sources. One changed entity in a change message: its serialized entity
chunk, the number of serialized components, and their chunks
(`ChangeMessage::changes` doc, `change_message.rs:72-80`). -/
structure ComponentChanges where
  entity : Nat × Nat
  components_len : Nat
  components : List (Nat × Nat)
deriving DecidableEq, Repr

/-- Modelled from the spec: `mutate_message.rs` is not among the
sources. One mutated entity pending in a mutate message: its entity
chunk, the number of mutated components and their chunks. -/
structure ComponentMutations where
  entity : Nat × Nat
  components_len : Nat
  components : List (Nat × Nat)
deriving DecidableEq, Repr

/-- Modelled from the spec: `ComponentChanges::extend` folds a mutation
record's component chunks and count into a change entry (used by
`take_mutations` to keep structural changes and same-tick mutations in
one message, `change_message.rs:188`). -/
def ComponentChanges.extend (c : ComponentChanges) (m : ComponentMutations) :
    ComponentChanges :=
  { c with
    components_len := c.components_len + m.components_len
    components := c.components ++ m.components }

/-- Modelled from the spec: `mutate_message.rs` is not among the
sources. The mutate message holds the pending mutation records plus the
flag `mutations_written` (set while component mutations have been
written for the entity currently being processed, reset by
`start_entity_mutations`/`pop_mutations`). -/
structure MutateMessage where
  mutations : List ComponentMutations
  mutations_written : Bool
deriving DecidableEq, Repr

/-- Modelled from the spec: `MutateMessage::last_mutations` returns the
most recently written mutation record. -/
def MutateMessage.last_mutations (m : MutateMessage) : Option ComponentMutations :=
  m.mutations.getLast?

/-- Modelled from the spec: `MutateMessage::pop_mutations` removes the
most recently written mutation record (its memory is recycled). -/
def MutateMessage.pop_mutations (m : MutateMessage) : MutateMessage :=
  { mutations := m.mutations.dropLast, mutations_written := false }

/-- Rust `ComponentRemovals` (`change_message.rs:341-345`). -/
structure ComponentRemovals where
  entity : Nat × Nat
  ids_len : Nat
  fn_ids : Nat × Nat
deriving DecidableEq, Repr

/-- Rust `ChangeMessage` (`change_message.rs:40-93`). The `entity_visibility`
marker and the `buffer` free-list only steer memory reuse and which
entities get written next; they do not appear in the serialized output,
so the model keeps the data chunks, the counts and the `entity_written`
flag. -/
structure ChangeMessage where
  mappings : Nat × Nat
  mappings_len : Nat
  despawns : List (Nat × Nat)
  despawns_len : Nat
  removals : List ComponentRemovals
  changes : List ComponentChanges
  entity_written : Bool
deriving DecidableEq, Repr

/-- Rust `ChangeMessage::add_despawn` (`change_message.rs:101-111`): counts
the entity and either extends the previous despawn range (when adjacent)
or pushes a new range. -/
def ChangeMessage.add_despawn (m : ChangeMessage) (entity : Nat × Nat) :
    ChangeMessage :=
  let m := { m with despawns_len := m.despawns_len + 1 }
  match m.despawns.getLast? with
  | some last =>
    if last.2 = entity.1 then
      { m with despawns := m.despawns.dropLast ++ [(last.1, entity.2)] }
    else
      { m with despawns := m.despawns ++ [entity] }
  | none => { m with despawns := m.despawns ++ [entity] }

/-- Rust `ChangeMessage::take_mutations` (`change_message.rs:168-191`): when
the mutate message has written mutations for its current entity, move
that record's component chunks into the change message — appending to
the entity's existing change entry, or creating a new one when no entry
was written — and pop the record from the mutate message. The source's
`expect`/`unwrap` on a missing record become `none`. -/
def ChangeMessage.take_mutations (cm : ChangeMessage) (mm : MutateMessage) :
    Option (ChangeMessage × MutateMessage) :=
  if mm.mutations_written = false then some (cm, mm)
  else
    match mm.last_mutations with
    | none => none
    | some muts =>
      let cm' := if cm.entity_written = false then
          { cm with changes := cm.changes ++ [⟨muts.entity, 0, []⟩] }
        else cm
      match cm'.changes.getLast? with
      | none => none
      | some last =>
        some ({ cm' with changes := cm'.changes.dropLast ++ [last.extend muts] },
              mm.pop_mutations)

/-- Modelled from the spec: `change_message_flags.rs` is not among the
sources. The four optional message sections in the spec's canonical wire
order mappings → despawns → removals → changes (§6, design note on
bitflags). -/
inductive ChangeFlag where
  | mappings
  | despawns
  | removals
  | changes
deriving DecidableEq, Repr

/-- Rust `ChangeMessage::flags` (`change_message.rs:305-322`) as the list of
set flags in canonical order; `bitflags` iteration (`iter_names`) yields
exactly this order and `ChangeMessageFlags::last` is its final element. -/
def ChangeMessage.flagsList (m : ChangeMessage) : List ChangeFlag :=
  (if m.mappings.1 < m.mappings.2 then [ChangeFlag.mappings] else []) ++
  (if m.despawns ≠ [] then [ChangeFlag.despawns] else []) ++
  (if m.removals ≠ [] then [ChangeFlag.removals] else []) ++
  (if m.changes ≠ [] then [ChangeFlag.changes] else [])

/-- The flags bitset byte (`bits()`): one bit per flag in canonical
order, mappings = `1 << 0` through changes = `1 << 3`. -/
def ChangeMessage.flagsBits (m : ChangeMessage) : Nat :=
  (if m.mappings.1 < m.mappings.2 then 1 else 0) +
  (if m.despawns ≠ [] then 2 else 0) +
  (if m.removals ≠ [] then 4 else 0) +
  (if m.changes ≠ [] then 8 else 0)

/-- The bytes `ChangeMessage::send` (`change_message.rs:200-303`) writes
for one section. Mappings always get a length prefix (the source writes
it unconditionally, asserting that mappings can never be the last flag);
despawns and removals are prefixed only when not last; changes (always
last when present) are never prefixed. -/
def ChangeMessage.sectionBytes (m : ChangeMessage) (data : List Nat)
    (lastFlag : Option ChangeFlag) : ChangeFlag → List Nat
  | .mappings =>
    varintEncode m.mappings_len ++ slice data m.mappings
  | .despawns =>
    (if some ChangeFlag.despawns ≠ lastFlag then varintEncode m.despawns_len else []) ++
    (m.despawns.map (slice data)).flatten
  | .removals =>
    (if some ChangeFlag.removals ≠ lastFlag then varintEncode m.removals.length else []) ++
    (m.removals.map (fun r =>
      slice data r.entity ++ varintEncode r.ids_len ++ slice data r.fn_ids)).flatten
  | .changes =>
    (m.changes.map (fun c =>
      slice data c.entity ++ varintEncode c.components_len ++
      (c.components.map (slice data)).flatten)).flatten

/-- Rust `ChangeMessage::send` (`change_message.rs:200-303`): flags byte, the
serialized server tick, then each present section in canonical order. -/
def ChangeMessage.sendBytes (m : ChangeMessage) (data : List Nat)
    (server_tick : Nat × Nat) : List Nat :=
  m.flagsBits :: slice data server_tick ++
    ((m.flagsList.map (m.sectionBytes data m.flagsList.getLast?)).flatten)

/-- The section counts named by the spec's wire format (mappings pairs,
despawned entities, removal entries; the changes section carries no
count of its own, its entries run to end-of-message). -/
def ChangeMessage.sectionCount (m : ChangeMessage) : ChangeFlag → Nat
  | .mappings => m.mappings_len
  | .despawns => m.despawns_len
  | .removals => m.removals.length
  | .changes => m.changes.length

/-- The body of a section, without any length prefix. -/
def ChangeMessage.sectionBody (m : ChangeMessage) (data : List Nat) :
    ChangeFlag → List Nat
  | .mappings => slice data m.mappings
  | .despawns => (m.despawns.map (slice data)).flatten
  | .removals =>
    (m.removals.map (fun r =>
      slice data r.entity ++ varintEncode r.ids_len ++ slice data r.fn_ids)).flatten
  | .changes =>
    (m.changes.map (fun c =>
      slice data c.entity ++ varintEncode c.components_len ++
      (c.components.map (slice data)).flatten)).flatten

/-- The wire layout exactly as the spec sentence states it: flags byte,
server tick, then every present section in canonical order, each
preceded by a varint length prefix except the final present section. -/
def ChangeMessage.specBytes (m : ChangeMessage) (data : List Nat)
    (server_tick : Nat × Nat) : List Nat :=
  m.flagsBits :: slice data server_tick ++
    ((m.flagsList.map (fun f =>
      (if some f ≠ m.flagsList.getLast? then varintEncode (m.sectionCount f) else []) ++
      m.sectionBody data f)).flatten)

/-- The spec layout amended with the source's mappings exception: a
mappings section is always length-prefixed, even when final. -/
def ChangeMessage.specBytesAmended (m : ChangeMessage) (data : List Nat)
    (server_tick : Nat × Nat) : List Nat :=
  m.flagsBits :: slice data server_tick ++
    ((m.flagsList.map (fun f =>
      (if some f ≠ m.flagsList.getLast? ∨ f = ChangeFlag.mappings then
        varintEncode (m.sectionCount f) else []) ++
      m.sectionBody data f)).flatten)

/-! ## Theorems -/

/-- C1: For ticks `a`, `b` the implemented ordering satisfies `a > b` iff
the wrapping difference `a - b` reinterpreted as an `i32` is positive,
`a = b` iff the difference is zero, and consequently `(t + k) > t` for
every `0 < k < 2^31`, even when the addition wraps the 32-bit counter. -/
theorem tick_ordering_wraparound_safe (a b t k : Nat)
    (ha : a < u32Mod) (hb : b < u32Mod) (ht : t < u32Mod)
    (hk0 : 0 < k) (hk : k < 2147483648) :
    (tickCmp a b = .gt ↔ 0 < asI32 (wrappingSub a b)) ∧
    (tickCmp a b = .eq ↔ wrappingSub a b = 0) ∧
    (a = b ↔ wrappingSub a b = 0) ∧
    tickCmp (tickAdd t k) t = .gt := by
  simp only [tickCmp, tickAdd, asI32, wrappingSub, wrappingAdd, u32Mod, u32Max] at *
  refine ⟨?_, ?_, ?_, ?_⟩
  · split_ifs <;> simp <;> omega
  · split_ifs <;> simp <;> omega
  · omega
  · split_ifs with h1 h2 <;> first | rfl | (exfalso; omega)

/-- Witness for C1 at a wrapping input: `t = u32::MAX`, `k = 1`. -/
theorem tick_ordering_wraparound_safe_witness :
    (tickCmp 0 4294967295 = .gt ↔ 0 < asI32 (wrappingSub 0 4294967295)) ∧
    (tickCmp 0 4294967295 = .eq ↔ wrappingSub 0 4294967295 = 0) ∧
    ((0 : Nat) = 4294967295 ↔ wrappingSub 0 4294967295 = 0) ∧
    tickCmp (tickAdd 4294967295 1) 4294967295 = .gt :=
  tick_ordering_wraparound_safe 0 4294967295 4294967295 1
    (by decide) (by decide) (by decide) (by decide) (by decide)

theorem varintDecode_encodeAux (fuel : Nat) : ∀ n, n ≤ fuel → ∀ rest : List Nat,
    varintDecode (varintEncodeAux fuel n ++ rest) = some (n, rest) := by
  induction fuel with
  | zero =>
    intro n hn rest
    have : n = 0 := by omega
    subst this
    simp [varintEncodeAux, varintDecode]
  | succ fuel ih =>
    intro n hn rest
    rw [varintEncodeAux]
    by_cases h : n < 128
    · simp [varintDecode, h]
    · rw [if_neg h, List.cons_append, varintDecode, if_neg (by omega),
        ih (n / 128) (by omega) rest]
      simp only [Option.map_some', Option.some.injEq, Prod.mk.injEq]
      exact ⟨by omega, trivial⟩

theorem varintDecode_encode (n : Nat) (rest : List Nat) :
    varintDecode (varintEncode n ++ rest) = some (n, rest) :=
  varintDecode_encodeAux n n (Nat.le_refl n) rest

/-- C6: the bytes written for an entity decode as exactly one varint
holding the index shifted left by one with the low bit set iff the
generation is positive; a second varint with the generation follows iff
the generation is positive, and nothing follows when it is zero. -/
theorem serialize_entity_flagged_varint (e : REntity) :
    varintDecode (serialize_entity e) =
      some (2 * e.index + (if 0 < e.generation then 1 else 0),
            if 0 < e.generation then varintEncode e.generation else []) ∧
    (0 < e.generation →
      varintDecode (if 0 < e.generation then varintEncode e.generation else []) =
        some (e.generation, [])) ∧
    (e.generation = 0 → serialize_entity e = varintEncode (2 * e.index)) := by
  refine ⟨?_, ?_, ?_⟩
  · simp only [serialize_entity, decide_eq_true_eq]
    exact varintDecode_encode _ _
  · intro h
    rw [if_pos h]
    simpa using varintDecode_encode e.generation []
  · intro h
    simp [serialize_entity, h]

/-- Witness for C6 at concrete entities (generation zero and non-zero). -/
theorem serialize_entity_flagged_varint_witness :
    varintDecode (serialize_entity ⟨300, 7⟩) =
      some (2 * 300 + (if 0 < 7 then 1 else 0),
            if (0:Nat) < 7 then varintEncode 7 else []) ∧
    ((0:Nat) < 7 →
      varintDecode (if (0:Nat) < 7 then varintEncode 7 else []) = some (7, [])) ∧
    ((7:Nat) = 0 → serialize_entity ⟨300, 7⟩ = varintEncode (2 * 300)) :=
  serialize_entity_flagged_varint ⟨300, 7⟩

theorem ackStep_ne (cur upd : Nat) (m : Nat → Option Nat) (e x : Nat) (h : x ≠ e) :
    ackStep cur upd m e x = m x := by
  simp [ackStep, h]

theorem foldl_ackStep_notin (cur upd : Nat) (es : List Nat) (m : Nat → Option Nat)
    (x : Nat) (h : x ∉ es) :
    es.foldl (ackStep cur upd) m x = m x := by
  induction es generalizing m with
  | nil => rfl
  | cons a es ih =>
    rw [List.foldl_cons, ih _ (fun hx => h (List.mem_cons_of_mem _ hx))]
    exact ackStep_ne _ _ _ _ _ (fun hx => h (hx ▸ List.mem_cons_self a es))

theorem ackFloor_idem (cur upd v : Nat) :
    (if isNewerThan (if isNewerThan v upd cur then v else upd) upd cur
      then (if isNewerThan v upd cur then v else upd) else upd)
    = if isNewerThan v upd cur then v else upd := by
  by_cases h : isNewerThan v upd cur
  · simp [h]
  · simp [h]

theorem foldl_ackStep_mem (cur upd : Nat) (es : List Nat) (m : Nat → Option Nat)
    (e : Nat) (h : e ∈ es) :
    es.foldl (ackStep cur upd) m e =
      (m e).map (fun last => if isNewerThan last upd cur then last else upd) := by
  induction es generalizing m with
  | nil => cases h
  | cons a es ih =>
    rw [List.foldl_cons]
    by_cases hes : e ∈ es
    · rw [ih _ hes]
      by_cases hea : e = a
      · subst hea
        simp only [ackStep, if_pos rfl, Option.map_map]
        cases m e with
        | none => rfl
        | some v => simp [ackFloor_idem]
      · rw [ackStep_ne _ _ _ _ _ hea]
    · have hea : e = a := by
        rcases List.mem_cons.mp h with h1 | h1
        · exact h1
        · exact absurd h1 hes
      subst hea
      rw [foldl_ackStep_notin _ _ _ _ _ hes]
      simp [ackStep]

/-- C3: acknowledging an update never regresses an entity's floor tick:
if the stored floor tick is already newer than the update's tick it is
left unchanged, otherwise it is raised to the update's tick; in both
cases the old floor is not newer than the resulting floor, so acks in
any order can only advance the floor in the code's newness order. -/
theorem acknowledge_never_regresses_floor (c : ReplicatedClient) (bufs : ClientBuffers)
    (cur idx : Nat) (info : UpdateInfo) (e old : Nat)
    (hinfo : updatesLookup c.updates idx = some info)
    (he : e ∈ info.entities)
    (hold : c.change_ticks e = some old) :
    ((c.acknowledge bufs cur idx).1.change_ticks e =
      some (if isNewerThan old info.tick cur then old else info.tick)) ∧
    isNewerThan old (if isNewerThan old info.tick cur then old else info.tick) cur
      = false := by
  constructor
  · simp only [ReplicatedClient.acknowledge, hinfo]
    rw [foldl_ackStep_mem _ _ _ _ _ he, hold]
    rfl
  · by_cases h : isNewerThan old info.tick cur
    · simp only [if_pos h]
      simp [isNewerThan]
    · simp only [if_neg h]
      exact Bool.not_eq_true _ ▸ (by simpa using h)

/-- Witness for C3: floor 10 raised to the acknowledged tick 15. -/
theorem acknowledge_never_regresses_floor_witness :
    ((ReplicatedClient.acknowledge
        { id := 1
          change_ticks := fun x => if x = 42 then some 10 else none
          visibility := ⟨.All, []⟩
          init_tick := 0
          updates := [(5, ⟨15, 0, [42]⟩)]
          next_update_index := 6 }
        ⟨[], []⟩ 20 5).1.change_ticks 42 =
      some (if isNewerThan 10 15 20 then 10 else 15)) ∧
    isNewerThan 10 (if isNewerThan 10 15 20 then 10 else 15) 20 = false :=
  acknowledge_never_regresses_floor _ ⟨[], []⟩ 20 5 ⟨15, 0, [42]⟩ 42 10
    (by decide) (by decide) (by simp)

/-- C4: acknowledging an unknown update index leaves the entire client
state (and the shared buffers) unchanged and does not fail; for a known
index, entities no longer tracked in the floor-tick map are skipped
without error. -/
theorem acknowledge_unknown_index_ignored (c : ReplicatedClient) (bufs : ClientBuffers)
    (cur idx : Nat) :
    (updatesLookup c.updates idx = none →
      c.acknowledge bufs cur idx = (c, bufs)) ∧
    (∀ info e, updatesLookup c.updates idx = some info → e ∈ info.entities →
      c.change_ticks e = none →
      (c.acknowledge bufs cur idx).1.change_ticks e = none) := by
  constructor
  · intro h
    simp [ReplicatedClient.acknowledge, h]
  · intro info e hinfo he hnone
    simp only [ReplicatedClient.acknowledge, hinfo]
    rw [foldl_ackStep_mem _ _ _ _ _ he, hnone]
    rfl

/-- Witness for C4: an ack with unknown index 7 is a no-op, and a tracked
update whose entity is missing from the floor map leaves it absent. -/
theorem acknowledge_unknown_index_ignored_witness :
    (ReplicatedClient.acknowledge
        { id := 1
          change_ticks := fun _ => none
          visibility := ⟨.All, []⟩
          init_tick := 0
          updates := [(5, ⟨15, 0, [42]⟩)]
          next_update_index := 6 }
        ⟨[], []⟩ 20 7 =
      ({ id := 1
         change_ticks := fun _ => none
         visibility := ⟨.All, []⟩
         init_tick := 0
         updates := [(5, ⟨15, 0, [42]⟩)]
         next_update_index := 6 }, ⟨[], []⟩)) ∧
    (ReplicatedClient.acknowledge
        { id := 1
          change_ticks := fun _ => none
          visibility := ⟨.All, []⟩
          init_tick := 0
          updates := [(5, ⟨15, 0, [42]⟩)]
          next_update_index := 6 }
        ⟨[], []⟩ 20 5).1.change_ticks 42 = none := by
  constructor
  · exact (acknowledge_unknown_index_ignored _ _ 20 7).1 (by decide)
  · exact (acknowledge_unknown_index_ignored _ _ 20 5).2 ⟨15, 0, [42]⟩ 42
      (by decide) (by decide) rfl

/-- C8 counterexample: after recycling, client 2's state object has
client 1's `init_tick` (5), while a freshly constructed client has
`init_tick` 0 — so the recycled state is not observationally equal to a
fresh `ReplicatedClient`. -/
theorem recycled_client_not_fresh :
    exampleRemoveThenAdd.1.clients.map (fun c => (c.id, c.init_tick)) = [(2, 5)] ∧
    (ReplicatedClient.new 2 .All).init_tick = 0 ∧
    exampleRemoveThenAdd.1.clients ≠ [ReplicatedClient.new 2 .All] := by
  refine ⟨rfl, rfl, fun h => ?_⟩
  have h5 : exampleRemoveThenAdd.1.clients.map (fun c => c.init_tick) = [0] := by
    rw [h]; rfl
  have h6 : exampleRemoveThenAdd.1.clients.map (fun c => c.init_tick) = [5] := rfl
  exact absurd (h5.symm.trans h6) (by decide)

/-- C8 amended: adding a client for ID `b` that reuses a pooled instance
yields a state object with `b`'s ID, an empty floor-tick map, cleared
visibility, an empty in-flight update registry and next update index
zero — equal to a freshly constructed client in every field except
`init_tick`, which retains the pooled (previous occupant's) value. -/
theorem recycled_client_reset_state (rc : ReplicatedClients) (bufs : ClientBuffers)
    (pool : List ReplicatedClient) (p : ReplicatedClient) (b : Nat)
    (hpool : bufs.clients = pool ++ [p])
    (hfree : ∀ c ∈ rc.clients, c.id ≠ b) :
    (rc.add bufs b).1.clients = rc.clients ++ [p.reset b] ∧
    (rc.add bufs b).2.clients = pool ∧
    p.reset b = { ReplicatedClient.new b p.visibility.policy with
                  init_tick := p.init_tick } := by
  have hany : rc.clients.any (fun c => c.id = b) = false := by
    simp only [List.any_eq_false, decide_eq_true_eq]
    exact hfree
  have hlast : bufs.clients.getLast? = some p := by
    rw [hpool]
    exact List.getLast?_concat _
  have hdrop : bufs.clients.dropLast = pool := by
    rw [hpool]
    exact List.dropLast_concat
  refine ⟨?_, ?_, rfl⟩
  · simp [ReplicatedClients.add, hany, hlast]
  · simp [ReplicatedClients.add, hany, hlast, hdrop]

/-- Witness for C8's amended theorem: the pooled example client is reset
for ID 2, matching the fresh state except for the retained init tick. -/
theorem recycled_client_reset_state_witness :
    (ReplicatedClients.add ⟨[], .All, true⟩ ⟨[exampleClientA], []⟩ 2).1.clients =
      [] ++ [exampleClientA.reset 2] ∧
    (ReplicatedClients.add ⟨[], .All, true⟩ ⟨[exampleClientA], []⟩ 2).2.clients = [] ∧
    exampleClientA.reset 2 =
      { ReplicatedClient.new 2 exampleClientA.visibility.policy with
        init_tick := exampleClientA.init_tick } :=
  recycled_client_reset_state ⟨[], .All, true⟩ ⟨[exampleClientA], []⟩ [] exampleClientA 2
    rfl (by simp)

/-- C9: a drained `ToClients` event is re-emitted locally exactly when
the server is a recipient of its mode (always for `Broadcast`, for
`BroadcastExcept(id)` iff `id ≠ SERVER`, for `Direct(id)` iff
`id = SERVER`), and `send_with` never sends a `Direct(SERVER)` event
over the wire to any connected client. -/
theorem resend_locally_server_recipient {α : Type} (events : List (SendMode × α))
    (connected : List Nat) :
    resendLocally events = (events.filter (fun p => serverIsRecipient p.1)).map
      (fun p => p.2) ∧
    serverIsRecipient .Broadcast = true ∧
    (∀ id, serverIsRecipient (.BroadcastExcept id) = true ↔ id ≠ serverClientId) ∧
    (∀ id, serverIsRecipient (.Direct id) = true ↔ id = serverClientId) ∧
    sendWithRecipients (.Direct serverClientId) connected = [] := by
  refine ⟨?_, rfl, ?_, ?_, by simp [sendWithRecipients]⟩
  · induction events with
    | nil => rfl
    | cons e rest ih =>
      obtain ⟨mode, event⟩ := e
      cases mode with
      | Broadcast => simpa [resendLocally, serverIsRecipient] using ih
      | BroadcastExcept id =>
        by_cases h : id = serverClientId <;>
          simpa [resendLocally, serverIsRecipient, h] using ih
      | Direct id =>
        by_cases h : id = serverClientId <;>
          simpa [resendLocally, serverIsRecipient, h] using ih
  · intro id
    simp [serverIsRecipient]
  · intro id
    simp [serverIsRecipient]

/-- C5 (failing run): two events arrive out of tick order (ticks 2 then
1) while the init tick is 0, so both are queued in arrival order; on the
next pass with init tick 1 the drain loop stops at the front entry
(tick 2) and emits nothing, even though the queued tick-1 event
satisfies `tick ≤ init_tick`. -/
theorem server_event_queue_drain_stalls :
    receivePass 0 ([] : List (Nat × Nat)) [(2, 10), (1, 11)] = ([], [(2, 10), (1, 11)]) ∧
    receivePass 1 [(2, 10), (1, 11)] ([] : List (Nat × Nat)) = ([], [(2, 10), (1, 11)]) ∧
    tickLeB 1 1 = true := by
  decide

theorem rangeIdx_merge (l1 l2 a2 : Nat) (h1 : l1 ≤ l2) (h2 : l2 ≤ a2) :
    rangeIdx (l1, a2) = rangeIdx (l1, l2) ++ rangeIdx (l2, a2) := by
  have h := List.range'_append_1 l1 (l2 - l1) (a2 - l2)
  rw [show l1 + (l2 - l1) = l2 by omega,
    show a2 - l2 + (l2 - l1) = a2 - l1 by omega] at h
  simpa [rangeIdx] using h.symm

theorem add_despawn_step (m : ChangeMessage) (a : Nat × Nat)
    (ha : a.1 ≤ a.2) (hm : ∀ r ∈ m.despawns, r.1 ≤ r.2) :
    (m.add_despawn a).despawns_len = m.despawns_len + 1 ∧
    ((m.add_despawn a).despawns.map rangeIdx).flatten
      = (m.despawns.map rangeIdx).flatten ++ rangeIdx a ∧
    ∀ r ∈ (m.add_despawn a).despawns, r.1 ≤ r.2 := by
  rcases hL : m.despawns.getLast? with _ | last
  · have hnil : m.despawns = [] := List.getLast?_eq_none_iff.mp hL
    simp [ChangeMessage.add_despawn, hL, hnil, ha]
  · obtain ⟨ys, hys⟩ := List.getLast?_eq_some_iff.mp hL
    have hlast : last ∈ m.despawns := by
      rw [hys]; exact List.mem_append_right _ (List.mem_singleton_self _)
    by_cases hadj : last.2 = a.1
    · have hstep : (m.add_despawn a).despawns = ys ++ [(last.1, a.2)] := by
        simp [ChangeMessage.add_despawn, hL, hadj, hys, List.dropLast_concat]
      refine ⟨by simp [ChangeMessage.add_despawn, hL, hadj], ?_, ?_⟩
      · rw [hstep, hys]
        simp only [List.map_append, List.flatten_append, List.map_cons, List.map_nil,
          List.flatten_cons, List.flatten_nil, List.append_nil, List.append_assoc]
        congr 1
        have hmerge := rangeIdx_merge last.1 last.2 a.2 (hm last hlast) (hadj ▸ ha)
        calc rangeIdx (last.1, a.2)
            = rangeIdx (last.1, last.2) ++ rangeIdx (last.2, a.2) := hmerge
          _ = rangeIdx last ++ rangeIdx a := by rw [Prod.mk.eta, hadj, Prod.mk.eta]
      · intro r hr
        rw [hstep] at hr
        rcases List.mem_append.mp hr with h | h
        · exact hm r (hys ▸ List.mem_append_left _ h)
        · have : r = (last.1, a.2) := List.mem_singleton.mp h
          subst this
          have := hm last hlast
          simp only
          omega
    · have hstep : (m.add_despawn a).despawns = m.despawns ++ [a] := by
        simp [ChangeMessage.add_despawn, hL, hadj]
      refine ⟨by simp [ChangeMessage.add_despawn, hL, hadj], ?_, ?_⟩
      · rw [hstep]
        simp
      · intro r hr
        rw [hstep] at hr
        rcases List.mem_append.mp hr with h | h
        · exact hm r h
        · exact (List.mem_singleton.mp h) ▸ ha

theorem add_despawn_fold (args : List (Nat × Nat)) (m : ChangeMessage)
    (hm : ∀ r ∈ m.despawns, r.1 ≤ r.2) (hargs : ∀ r ∈ args, r.1 ≤ r.2) :
    (args.foldl ChangeMessage.add_despawn m).despawns_len
      = m.despawns_len + args.length ∧
    ((args.foldl ChangeMessage.add_despawn m).despawns.map rangeIdx).flatten
      = (m.despawns.map rangeIdx).flatten ++ (args.map rangeIdx).flatten := by
  induction args generalizing m with
  | nil => simp
  | cons a args ih =>
    obtain ⟨h1, h2, h3⟩ :=
      add_despawn_step m a (hargs a (List.mem_cons_self a args)) hm
    obtain ⟨ih1, ih2⟩ :=
      ih (m.add_despawn a) h3 (fun r hr => hargs r (List.mem_cons_of_mem _ hr))
    constructor
    · rw [List.foldl_cons, ih1, h1]
      simp [Nat.add_assoc, Nat.add_comm 1]
    · rw [List.foldl_cons, ih2, h2]
      simp [List.append_assoc]

/-- C10: folding any sequence of well-formed despawn ranges into a fresh
change message yields a despawn count equal to the number of calls, and
the serialized positions covered by the stored (possibly merged) ranges
are exactly the concatenation of the argument ranges in call order —
merging adjacent ranges never changes the despawn content or count. -/
theorem add_despawn_merge_preserves_content (args : List (Nat × Nat))
    (hargs : ∀ r ∈ args, r.1 ≤ r.2) :
    (args.foldl ChangeMessage.add_despawn ⟨(0, 0), 0, [], 0, [], [], false⟩).despawns_len
      = args.length ∧
    ((args.foldl ChangeMessage.add_despawn
        ⟨(0, 0), 0, [], 0, [], [], false⟩).despawns.map rangeIdx).flatten
      = (args.map rangeIdx).flatten := by
  obtain ⟨h1, h2⟩ :=
    add_despawn_fold args ⟨(0, 0), 0, [], 0, [], [], false⟩ (by simp) hargs
  exact ⟨by simpa using h1, by simpa using h2⟩

/-- Witness for C10 with adjacent ranges (0,2)+(2,3) that get merged and
a separate range (5,6). -/
theorem add_despawn_merge_preserves_content_witness :
    ([(0, 2), (2, 3), (5, 6)].foldl ChangeMessage.add_despawn
        ⟨(0, 0), 0, [], 0, [], [], false⟩).despawns_len = 3 ∧
    (([(0, 2), (2, 3), (5, 6)].foldl ChangeMessage.add_despawn
        ⟨(0, 0), 0, [], 0, [], [], false⟩).despawns.map rangeIdx).flatten
      = ([(0, 2), (2, 3), (5, 6)].map rangeIdx).flatten :=
  add_despawn_merge_preserves_content [(0, 2), (2, 3), (5, 6)] (by decide)

/-- C2: when the mutate message has written mutations for an entity,
`take_mutations` moves all of that record's component chunks into the
change message — appending to the entity's existing change entry or
creating a new one — and removes the record from the mutate message, so
the same-tick mutations are never left split across the two messages. -/
theorem take_mutations_atomic (cm : ChangeMessage) (mm : MutateMessage)
    (muts : ComponentMutations) (last : ComponentChanges)
    (hw : mm.mutations_written = true)
    (hlast : mm.last_mutations = some muts)
    (hprev : (if cm.entity_written = true then cm.changes
              else cm.changes ++ [⟨muts.entity, 0, []⟩]).getLast? = some last)
    (hent : last.entity = muts.entity) :
    cm.take_mutations mm = some
      ({ cm with changes :=
          (if cm.entity_written = true then cm.changes
           else cm.changes ++ [⟨muts.entity, 0, []⟩]).dropLast ++
          [⟨muts.entity, last.components_len + muts.components_len,
            last.components ++ muts.components⟩] },
       { mutations := mm.mutations.dropLast, mutations_written := false }) := by
  obtain ⟨le, ll, lc⟩ := last
  simp only at hent
  subst hent
  cases hew : cm.entity_written with
  | true =>
    simp only [hew, if_true] at hprev
    simp [ChangeMessage.take_mutations, hw, hlast, hew, hprev,
      ComponentChanges.extend, MutateMessage.pop_mutations]
  | false =>
    simp only [hew, Bool.false_eq_true, if_false] at hprev
    rw [List.getLast?_concat] at hprev
    simp only [Option.some.injEq, ComponentChanges.mk.injEq] at hprev
    obtain ⟨-, h2, h3⟩ := hprev
    subst h2
    subst h3
    simp [ChangeMessage.take_mutations, hw, hlast, hew,
      ComponentChanges.extend, MutateMessage.pop_mutations, List.getLast?_concat]

/-- Witness for C2: a mutate message with one written record for entity
chunk (4,6) folded into an empty change message. -/
theorem take_mutations_atomic_witness :
    ChangeMessage.take_mutations ⟨(0, 0), 0, [], 0, [], [], false⟩
        ⟨[⟨(4, 6), 2, [(10, 12), (12, 15)]⟩], true⟩ =
      some (⟨(0, 0), 0, [], 0, [], [⟨(4, 6), 2, [(10, 12), (12, 15)]⟩], false⟩,
            ⟨[], false⟩) :=
  take_mutations_atomic _ _ ⟨(4, 6), 2, [(10, 12), (12, 15)]⟩ ⟨(4, 6), 0, []⟩
    rfl rfl (by decide) rfl

/-- C7 counterexample: for a message whose only present section is
mappings, `send` still writes the varint length prefix (the source does
so unconditionally, asserting that mappings can never be the final
flag), so the output differs from the spec's "final present section is
unprefixed" layout. -/
theorem change_message_sole_mappings_prefixed :
    ChangeMessage.sendBytes ⟨(0, 2), 1, [], 0, [], [], false⟩ [7, 8, 9, 10] (2, 3) ≠
    ChangeMessage.specBytes ⟨(0, 2), 1, [], 0, [], [], false⟩ [7, 8, 9, 10] (2, 3) := by
  decide

/-- C7 amended: `send` produces the flags byte, the serialized server
tick, then the present sections in the fixed order mappings → despawns
→ removals → changes, each preceded by a varint length prefix except
the final present section — with the amendment that a mappings section
is always length-prefixed, even when it is the final present one. -/
theorem change_message_send_layout (m : ChangeMessage) (data : List Nat)
    (server_tick : Nat × Nat) :
    m.sendBytes data server_tick = m.specBytesAmended data server_tick := by
  by_cases h1 : m.mappings.1 < m.mappings.2 <;>
  by_cases h2 : m.despawns ≠ [] <;>
  by_cases h3 : m.removals ≠ [] <;>
  by_cases h4 : m.changes ≠ [] <;>
    simp [ChangeMessage.sendBytes, ChangeMessage.specBytesAmended,
      ChangeMessage.flagsList, ChangeMessage.sectionBytes, ChangeMessage.sectionBody,
      ChangeMessage.sectionCount, h1, h2, h3, h4]

end Replication
